import Mathlib

/-!
Verification development for the `connpool` Go package (`pool.go`).

The embedding is shallow: each Go function that the properties mention is
translated to a Lean definition over explicit state.  Concurrency is
modelled by making the environment's choices explicit: the outcomes of the
channel operations that `Get` performs are a list of `PullOutcome` events,
and the token discipline of `chanTotal` is a small labelled transition
system over counters.  Machine integers (`int`, `int64`, `uint64`) are
modelled as `Int`/`Nat`; none of the modelled arithmetic can overflow in
the scenarios considered (timestamps and small counters).
-/

namespace Connpool

/-- The pool's sentinel error values (`ErrPoolClosed`, `ErrIdleTimeout`,
`ErrIdleFull`, `ErrGetTimeout` in `pool.go`), together with opaque errors
produced by the user-supplied `Creator` (`NewItem` / `InitItem`), which we
index by a numeric code since the pool never inspects them. -/
inductive PErr where
  | poolClosed
  | idleTimeout
  | idleFull
  | getTimeout
  | creatorErr (code : Nat)
deriving DecidableEq, Repr

/-- The `itemInfo` record of `pool.go`: pool-private bookkeeping wrapped
around one pooled resource.  The `item PoolItem` field (the opaque
resource) is not needed by any property, so the record itself stands for
the resource handle; `timer` is a reusable timer object with no logical
state. -/
structure ItemInfo where
  active : Bool
  useCount : Nat
  idleTime : Int
  closed : Bool
  err : Option PErr
deriving DecidableEq, Repr

/-- Model of `newInfoItem` from `pool.go`: a freshly created record is inactive,
has `useCount = 0`, `idleTime = time.Now().Unix()` (passed as `now`),
is not closed and carries no error. -/
def newInfoItem (now : Int) : ItemInfo :=
  { active := false, useCount := 0, idleTime := now, closed := false, err := none }

/-- Model of `Pool.checkIdleTimeout` from `pool.go` (lines 362-375): returns `true`
(meaning the item is disposed with `ErrIdleTimeout`) exactly when
`idleTimeout > 0`, `item.idleTime > 0` and
`item.idleTime <= time.Now().Unix() - idleTimeout`. -/
def checkIdleTimeout (idleTimeout : Int) (now : Int) (item : ItemInfo) : Bool :=
  if idleTimeout ≤ 0 then false
  else if item.idleTime ≤ 0 then false
  else decide (item.idleTime ≤ now - idleTimeout)

/-- The configuration produced by `NewPool` (`pool.go` lines 134-149):
the normalized field values and the capacities of the four internal
channels.  Go `int` is modelled as `Int`. -/
structure PoolConfig where
  maxTotalNum : Int
  maxIdleNum : Int
  idleTimeout : Int
  chanIdleCap : Int
  chanToNewCap : Int
  chanTotalCap : Int
  chanCloseCap : Int
deriving DecidableEq, Repr

/-- Model of `NewPool` from `pool.go`: if `maxIdleNum == maxTotalNum` then
`maxIdleNum` is silently replaced by `maxTotalNum + 1`; the idle channel
is allocated with the (normalized) `maxIdleNum` capacity, `chanToNew` and
`chanClose` with capacity 1, and `chanTotal` with capacity `maxTotalNum`. -/
def NewPool (maxTotalNum maxIdleNum idleTimeout : Int) : PoolConfig :=
  let normIdle := if maxIdleNum = maxTotalNum then maxTotalNum + 1 else maxIdleNum
  { maxTotalNum := maxTotalNum
    maxIdleNum := normIdle
    idleTimeout := idleTimeout
    chanIdleCap := normIdle
    chanToNewCap := 1
    chanTotalCap := maxTotalNum
    chanCloseCap := 1 }

/-- The mutation `item.active = true; item.useCount++` performed by
`Pool.Get` (lines 295-296 and 345-346) on every item pulled from the
Idle Registry before the idle-expiry check and the `InitItem` call. -/
def acquireMark (r : ItemInfo) : ItemInfo :=
  { r with active := true, useCount := r.useCount + 1 }

/-- One outcome of a pull point inside `Pool.Get`'s loop:
`got r now` — the receive from `chanIdle` delivered the record `r`, with
`time.Now().Unix() = now` at that moment; `chanClosed` — the receive
found `chanIdle` closed (`ok = false`); `timerFired` — the `getTimeout`
timer won the race at the blocking pull (only possible when
`getTimeout > 0`); `panicked` — an internal panic (send/receive on a
channel torn down by a concurrent `Close`), intercepted by `Get`'s
deferred `recover`. -/
inductive PullOutcome where
  | got (r : ItemInfo) (now : Int)
  | chanClosed
  | timerFired
  | panicked
deriving DecidableEq, Repr

/-- The result of `Pool.Get`: `item r` — returned `(r.item, nil)`;
`err e` — returned `(nil, e)`; `pending` — the event trace ran out while
the loop was still pulling (the call is still blocked/looping). -/
inductive GetResult where
  | item (r : ItemInfo)
  | err (e : PErr)
  | pending
deriving DecidableEq, Repr

/-- The loop body of `Pool.Get` (`pool.go` lines 268-360), driven by the
trace of pull outcomes.  Each event is consumed by one pull; on `got r
now` the code path is: skip a `closed` record; otherwise set
`active = true`, increment `useCount`, dispose with `ErrIdleTimeout` and
retry if `checkIdleTimeout` fires, dispose with the `InitItem` error and
retry if `initItem` (the creator hook, called as
`InitItem(item.item, item.useCount)`) fails, else return the record.
`chanClosed` and `panicked` yield `(nil, ErrPoolClosed)`; `timerFired`
yields `(nil, ErrGetTimeout)`.  The second component collects the
`closeItem` disposals (record and recorded error) made along the way. -/
def Get (initItem : ItemInfo → Nat → Option Nat) (idleTimeout : Int) :
    List PullOutcome → GetResult × List (ItemInfo × PErr)
  | [] => (GetResult.pending, [])
  | PullOutcome.chanClosed :: _ => (GetResult.err PErr.poolClosed, [])
  | PullOutcome.timerFired :: _ => (GetResult.err PErr.getTimeout, [])
  | PullOutcome.panicked :: _ => (GetResult.err PErr.poolClosed, [])
  | PullOutcome.got r now :: rest =>
    if r.closed then Get initItem idleTimeout rest
    else
      let rp := acquireMark r
      if checkIdleTimeout idleTimeout now rp then
        let t := Get initItem idleTimeout rest
        (t.1, (rp, PErr.idleTimeout) :: t.2)
      else
        match initItem rp rp.useCount with
        | some code =>
          let t := Get initItem idleTimeout rest
          (t.1, (rp, PErr.creatorErr code) :: t.2)
        | none => (GetResult.item rp, [])

/-- A trace is consistent with the configured `getTimeout` if, when no
timeout is configured (`getTimeout <= 0`), the blocking pull is a bare
channel receive and the timer can never fire. -/
def timerAllowed (getTimeout : Int) (t : List PullOutcome) : Prop :=
  getTimeout ≤ 0 → PullOutcome.timerFired ∉ t

/-- State of the pool as seen by `Pool.Close` (`pool.go` lines 475-491):
whether `chanClose` has been closed (the idempotence guard), whether the
other internal channels (`chanToNew`, `chanTotal`, `chanIdle`) have been
closed, the contents of the Idle Registry, the log of `closeItem`
disposals, and how many times `creator.Close()` has run. -/
structure CloseState where
  chanCloseClosed : Bool
  chansClosed : Bool
  idle : List ItemInfo
  disposals : List (ItemInfo × PErr)
  creatorCloseCount : Nat
deriving DecidableEq, Repr

/-- Model of `Pool.Close` from `pool.go`: the leading `select` on `chanClose`
returns immediately when a previous `Close` already closed it; otherwise
it closes `chanToNew`, `chanTotal`, `chanClose`, `chanIdle`, drains the
Idle Registry disposing every remaining record with `ErrPoolClosed`
(`closeItem(item, ErrPoolClosed)`), and finally calls `creator.Close()`. -/
def Close (s : CloseState) : CloseState :=
  if s.chanCloseClosed then s
  else
    { chanCloseClosed := true
      chansClosed := true
      idle := []
      disposals := s.disposals ++ s.idle.map (fun r => (r, PErr.poolClosed))
      creatorCloseCount := s.creatorCloseCount + 1 }

/-- Outcome of `doGiveBack`'s race (`pool.go` lines 456-465) between the
send `chanIdle <- item` and the record's timer reset to 10 seconds:
either the push completes within the grace period or the timer fires. -/
inductive PushRace where
  | pushed
  | graceTimedOut
deriving DecidableEq, Repr

/-- The grace period `time.Duration(10) * time.Second` that `doGiveBack`
arms before racing the push into the Idle Registry (line 456). -/
def giveBackGraceSeconds : Nat := 10

/-- The pool state that `doGiveBack`/`Close` observe: the Idle Registry
contents and the log of `closeItem` disposals. -/
structure GBState where
  idle : List ItemInfo
  disposals : List (ItemInfo × PErr)
deriving DecidableEq, Repr

/-- Model of `Pool.doGiveBack` from `pool.go` (lines 439-472).  `resolved` is the
result of resolving `_item.GetContainer()` to an `*itemInfo` (`none` when
the type assertion fails or yields nil).  An unresolvable handle or an
already-`closed` record is a no-op.  Otherwise the record is marked
`active = false`, stamped `idleTime = time.Now().Unix()` (`now`), and the
push into `chanIdle` races the 10-second timer: on `pushed` the record
enters the Idle Registry, on `graceTimedOut` it is disposed via
`closeItem(item, ErrIdleFull)`. -/
def doGiveBack (resolved : Option ItemInfo) (now : Int) (race : PushRace)
    (s : GBState) : GBState :=
  match resolved with
  | none => s
  | some item =>
    if item.closed then s
    else
      match race with
      | PushRace.pushed =>
        { s with idle := s.idle ++ [{ item with active := false, idleTime := now }] }
      | PushRace.graceTimedOut =>
        { s with disposals :=
            s.disposals ++ [({ item with active := false, idleTime := now }, PErr.idleFull)] }

/-- The test `err != ErrPoolClosed && err != ErrIdleFull &&
err != ErrIdleTimeout` of `doClearItem` (line 407): a replenishment
signal is sent only when the recorded error is not one of these three
routine sentinels. -/
def shouldResignal (e : Option PErr) : Bool :=
  match e with
  | some PErr.poolClosed => false
  | some PErr.idleFull => false
  | some PErr.idleTimeout => false
  | _ => true

/-- The state that `doClearItem` mutates: whether the handle's container
back-reference still resolves to its record, the record's `closed` flag
and recorded error, the number of tokens in `chanTotal`, the pending
`chanToNew` signal (capacity-1 channel modelled as a Bool), and a count
of how many times the per-record teardown body has run. -/
structure ClearState where
  hasContainer : Bool
  itemClosed : Bool
  itemErr : Option PErr
  tokens : Nat
  toNewSignal : Bool
  teardownCount : Nat
deriving DecidableEq, Repr

/-- Model of `Pool.doClearItem` from `pool.go` (lines 392-415).  If the container
back-reference does not resolve (`GetContainer` returned nil, e.g.
because a previous disposal already called `SetContainer(nil)`), or the
record is already `closed`, the call is a no-op.  Otherwise it sets
`closed = true`, releases one Total-Count Gate token (`<-chanTotal`),
clears the back-reference (`SetContainer(nil)`), and — unless the
recorded error is a routine sentinel — makes a non-blocking send on
`chanToNew`. -/
def doClearItem (s : ClearState) : ClearState :=
  if s.hasContainer = false then s
  else if s.itemClosed then s
  else
    { hasContainer := false
      itemClosed := true
      itemErr := s.itemErr
      tokens := s.tokens - 1
      toNewSignal := if shouldResignal s.itemErr then true else s.toNewSignal
      teardownCount := s.teardownCount + 1 }

/-- Abstract counting state for the Total-Count Gate discipline:
`tokens` is `len(chanTotal)`, `pending` counts creation goroutines that
hold a token but have not yet produced a record, `idle` counts records
in the Idle Registry, and `busy` counts records pulled out of the
registry and not yet released or disposed (held by a caller, by `Get`'s
loop body, or by the Idle Reaper). -/
structure PoolSt where
  tokens : Nat
  pending : Nat
  idle : Nat
  busy : Nat
deriving DecidableEq, Repr

/-- The transitions of the pool's counting state, with the guards the
channel operations impose.  `acquireToken` is `newItem`'s
`chanTotal <- struct` send (succeeds only while `len < maxTotal`),
strictly before the creation goroutine runs; `createOk` is a successful
`creator.NewItem` followed by the `chanIdle <- itemInfo` send (needs
room in the Idle Registry); `createFail` is the error path that returns
the token (`<-chanTotal`); `pullIdle` is a receive in `Get` or the
reaper; `giveBack` is `doGiveBack`'s successful push; `dispose` is
`doClearItem` on a held record, releasing its token (`<-chanTotal`
blocks unless a token is present). -/
inductive Step (maxTotal maxIdle : Nat) : PoolSt → PoolSt → Prop where
  | acquireToken (s : PoolSt) : s.tokens < maxTotal →
      Step maxTotal maxIdle s
        { s with tokens := s.tokens + 1, pending := s.pending + 1 }
  | createOk (s : PoolSt) : 0 < s.pending → s.idle < maxIdle →
      Step maxTotal maxIdle s
        { s with pending := s.pending - 1, idle := s.idle + 1 }
  | createFail (s : PoolSt) : 0 < s.pending → 0 < s.tokens →
      Step maxTotal maxIdle s
        { s with pending := s.pending - 1, tokens := s.tokens - 1 }
  | pullIdle (s : PoolSt) : 0 < s.idle →
      Step maxTotal maxIdle s
        { s with idle := s.idle - 1, busy := s.busy + 1 }
  | giveBack (s : PoolSt) : 0 < s.busy → s.idle < maxIdle →
      Step maxTotal maxIdle s
        { s with busy := s.busy - 1, idle := s.idle + 1 }
  | dispose (s : PoolSt) : 0 < s.busy → 0 < s.tokens →
      Step maxTotal maxIdle s
        { s with busy := s.busy - 1, tokens := s.tokens - 1 }

/-- The pool starts with all channels empty and no records
(`NewPool` allocates empty channels). -/
def initSt : PoolSt :=
  { tokens := 0, pending := 0, idle := 0, busy := 0 }

/-- States reachable from the initial pool state by `Step` transitions. -/
inductive Reachable (maxTotal maxIdle : Nat) : PoolSt → Prop where
  | init : Reachable maxTotal maxIdle initSt
  | step {s t : PoolSt} : Reachable maxTotal maxIdle s →
      Step maxTotal maxIdle s t → Reachable maxTotal maxIdle t

/-- C9: when the caller supplies `maxIdleNum = maxTotalNum`, `NewPool`
silently normalizes `maxIdleNum` to `maxTotalNum + 1`, the Idle Registry
(`chanIdle`) is allocated with capacity `maxTotalNum + 1`, and the
configured `maxIdleNum` is strictly greater than `maxTotalNum`; for
unequal inputs both values are used exactly as supplied. -/
theorem newPool_equal_maxIdle_normalized (t m i : Int) :
    (NewPool t t i).maxIdleNum = t + 1 ∧
    (NewPool t t i).chanIdleCap = t + 1 ∧
    (NewPool t t i).maxTotalNum < (NewPool t t i).maxIdleNum ∧
    (m ≠ t →
      (NewPool t m i).maxIdleNum = m ∧
      (NewPool t m i).maxTotalNum = t ∧
      (NewPool t m i).chanIdleCap = m) := by
  refine ⟨by simp [NewPool], by simp [NewPool], by simp [NewPool], ?_⟩
  intro hne
  simp [NewPool, hne]

/-- Witness for C9 at `maxTotalNum = 4`: equal supplied values `4, 4`
are normalized to `maxIdleNum = 5`, while the unequal pair `4, 7` is kept
as supplied. -/
theorem newPool_equal_maxIdle_normalized_witness :
    (NewPool 4 4 60).maxIdleNum = 4 + 1 ∧
    (NewPool 4 7 60).maxIdleNum = 7 ∧
    (NewPool 4 7 60).maxTotalNum = 4 ∧
    (NewPool 4 7 60).chanIdleCap = 7 := by
  have h := newPool_equal_maxIdle_normalized 4 7 60
  have h2 := h.2.2.2 (by decide)
  exact ⟨(newPool_equal_maxIdle_normalized 4 4 60).1, h2.1, h2.2.1, h2.2.2⟩

/-- Unfolding equation for `Get` on a successful pull event. -/
theorem Get_got (ii : ItemInfo → Nat → Option Nat) (it : Int) (r : ItemInfo)
    (now : Int) (rest : List PullOutcome) :
    Get ii it (PullOutcome.got r now :: rest) =
      if r.closed then Get ii it rest
      else if checkIdleTimeout it now (acquireMark r) then
        ((Get ii it rest).1, (acquireMark r, PErr.idleTimeout) :: (Get ii it rest).2)
      else
        match ii (acquireMark r) (acquireMark r).useCount with
        | some code =>
          ((Get ii it rest).1, (acquireMark r, PErr.creatorErr code) :: (Get ii it rest).2)
        | none => (GetResult.item (acquireMark r), []) := rfl

/-- Every error result of `Get` is one of the two sentinels `ErrPoolClosed`
or `ErrGetTimeout`. -/
theorem get_err_cases (ii : ItemInfo → Nat → Option Nat) (it : Int) :
    ∀ (t : List PullOutcome) (e : PErr),
      (Get ii it t).1 = GetResult.err e →
      e = PErr.poolClosed ∨ e = PErr.getTimeout := by
  intro t
  induction t with
  | nil => intro e h; simp [Get] at h
  | cons hd tl ih =>
    intro e h
    cases hd with
    | chanClosed =>
      simp [Get] at h
      exact Or.inl h.symm
    | timerFired =>
      simp [Get] at h
      exact Or.inr h.symm
    | panicked =>
      simp [Get] at h
      exact Or.inl h.symm
    | got r now =>
      rw [Get_got] at h
      by_cases hc : r.closed = true
      · simp [hc] at h
        exact ih e h
      · simp [hc] at h
        by_cases hk : checkIdleTimeout it now (acquireMark r) = true
        · simp [hk] at h
          exact ih e h
        · simp [hk] at h
          cases hii : ii (acquireMark r) (acquireMark r).useCount with
          | some code =>
            simp [hii] at h
            exact ih e h
          | none => simp [hii] at h

/-- If the timer never fires in the trace, `Get` never reports
`ErrGetTimeout`. -/
theorem get_no_timer_no_getTimeout (ii : ItemInfo → Nat → Option Nat) (it : Int) :
    ∀ (t : List PullOutcome), PullOutcome.timerFired ∉ t →
      (Get ii it t).1 ≠ GetResult.err PErr.getTimeout := by
  intro t
  induction t with
  | nil => intro _ h; simp [Get] at h
  | cons hd tl ih =>
    intro hmem h
    cases hd with
    | chanClosed => simp [Get] at h
    | timerFired => exact hmem (List.mem_cons_self _ _)
    | panicked => simp [Get] at h
    | got r now =>
      have htl : PullOutcome.timerFired ∉ tl := fun hx => hmem (List.mem_cons_of_mem _ hx)
      rw [Get_got] at h
      by_cases hc : r.closed = true
      · simp [hc] at h
        exact ih htl h
      · simp [hc] at h
        by_cases hk : checkIdleTimeout it now (acquireMark r) = true
        · simp [hk] at h
          exact ih htl h
        · simp [hk] at h
          cases hii : ii (acquireMark r) (acquireMark r).useCount with
          | some code =>
            simp [hii] at h
            exact ih htl h
          | none => simp [hii] at h

/-- Every record returned by `Get` was produced by `acquireMark` from a
non-`closed` pulled record, passed the idle-expiry check at its pull
moment, and passed the `InitItem` hook called with its (incremented)
`useCount`. -/
theorem get_item_origin (ii : ItemInfo → Nat → Option Nat) (it : Int) :
    ∀ (t : List PullOutcome) (rp : ItemInfo),
      (Get ii it t).1 = GetResult.item rp →
      ∃ r now, rp = acquireMark r ∧ r.closed = false ∧
        checkIdleTimeout it now rp = false ∧ ii rp rp.useCount = none := by
  intro t
  induction t with
  | nil => intro rp h; simp [Get] at h
  | cons hd tl ih =>
    intro rp h
    cases hd with
    | chanClosed => simp [Get] at h
    | timerFired => simp [Get] at h
    | panicked => simp [Get] at h
    | got r now =>
      rw [Get_got] at h
      by_cases hc : r.closed = true
      · simp [hc] at h
        exact ih rp h
      · simp [hc] at h
        by_cases hk : checkIdleTimeout it now (acquireMark r) = true
        · simp [hk] at h
          exact ih rp h
        · simp [hk] at h
          cases hii : ii (acquireMark r) (acquireMark r).useCount with
          | some code =>
            simp [hii] at h
            exact ih rp h
          | none =>
            simp [hii] at h
            subst h
            exact ⟨r, now, rfl, by simpa using hc, by simpa using hk, hii⟩

/-- With no idle timeout configured (`idleTimeout = 0`), `Get` never
disposes an item with `ErrIdleTimeout`. -/
theorem get_zero_idleTimeout_no_expiry (ii : ItemInfo → Nat → Option Nat) :
    ∀ (t : List PullOutcome) (x : ItemInfo),
      (x, PErr.idleTimeout) ∉ (Get ii 0 t).2 := by
  intro t
  induction t with
  | nil => intro x h; simp [Get] at h
  | cons hd tl ih =>
    intro x h
    cases hd with
    | chanClosed => simp [Get] at h
    | timerFired => simp [Get] at h
    | panicked => simp [Get] at h
    | got r now =>
      rw [Get_got] at h
      have hk : checkIdleTimeout 0 now (acquireMark r) = false := by
        simp [checkIdleTimeout]
      by_cases hc : r.closed = true
      · simp [hc] at h
        exact ih x h
      · simp [hc, hk] at h
        cases hii : ii (acquireMark r) (acquireMark r).useCount with
        | some code =>
          simp [hii] at h
          exact ih x h
        | none => simp [hii] at h

/-- Helper: `checkIdleTimeout` fires whenever the timeout is positive, the idle
stamp is a real (positive) Unix time, and the stamp is at or before
`now - idleTimeout`. -/
theorem checkIdleTimeout_pos (it now : Int) (x : ItemInfo) (h1 : 0 < it)
    (h2 : 0 < x.idleTime) (h3 : x.idleTime ≤ now - it) :
    checkIdleTimeout it now x = true := by
  unfold checkIdleTimeout
  rw [if_neg (by omega), if_neg (by omega)]
  simpa using h3

/-- Token accounting: in every reachable counting state, idle records,
held records and in-flight creations exactly account for the tokens in
`chanTotal`, and the token count respects the channel capacity. -/
theorem reachable_tokens {maxTotal maxIdle : Nat} {s : PoolSt}
    (h : Reachable maxTotal maxIdle s) :
    s.idle + s.busy + s.pending = s.tokens ∧ s.tokens ≤ maxTotal := by
  induction h with
  | init => exact ⟨rfl, Nat.zero_le _⟩
  | step hr hs ih =>
    obtain ⟨e1, e2⟩ := ih
    cases hs with
    | acquireToken hg => refine ⟨?_, ?_⟩ <;> dsimp only <;> omega
    | createOk hg hg2 => refine ⟨?_, ?_⟩ <;> dsimp only <;> omega
    | createFail hg hg2 => refine ⟨?_, ?_⟩ <;> dsimp only <;> omega
    | pullIdle hg => refine ⟨?_, ?_⟩ <;> dsimp only <;> omega
    | giveBack hg hg2 => refine ⟨?_, ?_⟩ <;> dsimp only <;> omega
    | dispose hg hg2 => refine ⟨?_, ?_⟩ <;> dsimp only <;> omega

/-- C1: in every reachable pool state, the number of idle items plus the
number of currently-acquired-but-not-released items never exceeds
`maxTotalNum`: a `chanTotal` token (capacity `maxTotalNum`) is acquired
strictly before any record is created by the replenishment worker
(`Step.acquireToken` precedes `Step.createOk`) and is released exactly
when a record is disposed (`Step.dispose`, `Step.createFail`), so live
records are always bounded by the token count. -/
theorem capacity_invariant (maxTotal maxIdle : Nat) (s : PoolSt)
    (h : Reachable maxTotal maxIdle s) :
    s.idle + s.busy ≤ maxTotal := by
  obtain ⟨e1, e2⟩ := reachable_tokens h
  omega

/-- Witness for C1: with `maxTotalNum = 1`, `maxIdleNum = 2`, the state
reached by acquiring a token, creating one record and handing it to a
caller has one live record, within the bound. -/
theorem capacity_invariant_witness :
    PoolSt.idle { tokens := 1, pending := 0, idle := 0, busy := 1 } +
    PoolSt.busy { tokens := 1, pending := 0, idle := 0, busy := 1 } ≤ 1 := by
  refine capacity_invariant 1 2 _ ?_
  have h1 : Reachable 1 2 { tokens := 1, pending := 1, idle := 0, busy := 0 } :=
    Reachable.step Reachable.init (Step.acquireToken initSt (by decide))
  have h2 : Reachable 1 2 { tokens := 1, pending := 0, idle := 1, busy := 0 } :=
    Reachable.step h1
      (Step.createOk { tokens := 1, pending := 1, idle := 0, busy := 0 }
        (by decide) (by decide))
  exact Reachable.step h2
    (Step.pullIdle { tokens := 1, pending := 0, idle := 1, busy := 0 } (by decide))

/-- C2: with `idleTimeout > 0`, a pulled item whose `idleTime` stamp is a
real Unix time strictly older than `idleTimeout` seconds at the pull
moment is never returned: `Get` disposes it with `ErrIdleTimeout` and
retries the pull; with `idleTimeout = 0` no item is ever disposed for
idle expiry; and every item `Get` does return passed the
`checkIdleTimeout` test (was not stale) at its pull moment. -/
theorem get_idle_expiry (ii : ItemInfo → Nat → Option Nat) (it now : Int)
    (r : ItemInfo) (rest : List PullOutcome) :
    (0 < it → 0 < r.idleTime → it < now - r.idleTime → r.closed = false →
      Get ii it (PullOutcome.got r now :: rest)
        = ((Get ii it rest).1,
           (acquireMark r, PErr.idleTimeout) :: (Get ii it rest).2)) ∧
    (∀ (t : List PullOutcome) (x : ItemInfo),
      (x, PErr.idleTimeout) ∉ (Get ii 0 t).2) ∧
    (∀ (t : List PullOutcome) (rp : ItemInfo),
      (Get ii it t).1 = GetResult.item rp →
      ∃ r2 n2, rp = acquireMark r2 ∧ checkIdleTimeout it n2 rp = false) ∧
    (∀ (x : ItemInfo), 0 < it → 0 < x.idleTime →
      checkIdleTimeout it now x = false → now - x.idleTime < it) := by
  refine ⟨?_, get_zero_idleTimeout_no_expiry ii, ?_, ?_⟩
  · intro hit hidle hold hcl
    have hk : checkIdleTimeout it now (acquireMark r) = true := by
      refine checkIdleTimeout_pos it now _ hit ?_ ?_
      · show 0 < r.idleTime
        exact hidle
      · show r.idleTime ≤ now - it
        omega
    rw [Get_got, hcl]
    simp [hk]
  · intro t rp h
    obtain ⟨r2, n2, h1, -, h3, -⟩ := get_item_origin ii it t rp h
    exact ⟨r2, n2, h1, h3⟩
  · intro x h1 h2 h3
    unfold checkIdleTimeout at h3
    rw [if_neg (by omega), if_neg (by omega)] at h3
    simp at h3
    omega

/-- Witness for C2: with `idleTimeout = 5`, a fresh record stamped at
Unix time 1 and pulled at time 100 is disposed with `ErrIdleTimeout` and
the pull is retried. -/
theorem get_idle_expiry_witness :
    Get (fun _ _ => none) 5 [PullOutcome.got (newInfoItem 1) 100]
      = ((Get (fun _ _ => none) 5 []).1,
         (acquireMark (newInfoItem 1), PErr.idleTimeout)
           :: (Get (fun _ _ => none) 5 []).2) :=
  (get_idle_expiry (fun _ _ => none) 5 100 (newInfoItem 1) []).1
    (by decide) (by decide) (by decide) rfl

/-- C3: `Close` is idempotent — a second call on an already-closed pool
is a no-op, so the channels are closed and `creator.Close()` runs only
once; the first call closes the internal channels, empties the Idle
Registry disposing every remaining record with `ErrPoolClosed`, and
bumps the `creator.Close()` count exactly once; and a `Get` that finds
`chanIdle` closed returns `(nil, ErrPoolClosed)` at its first
(non-blocking) pull. -/
theorem close_idempotent (s : CloseState) :
    Close (Close s) = Close s ∧
    (s.chanCloseClosed = true → Close s = s) ∧
    (s.chanCloseClosed = false →
      (Close s).chanCloseClosed = true ∧
      (Close s).chansClosed = true ∧
      (Close s).idle = [] ∧
      (Close s).disposals
        = s.disposals ++ s.idle.map (fun r => (r, PErr.poolClosed)) ∧
      (Close s).creatorCloseCount = s.creatorCloseCount + 1) ∧
    (∀ (ii : ItemInfo → Nat → Option Nat) (it : Int) (rest : List PullOutcome),
      Get ii it (PullOutcome.chanClosed :: rest)
        = (GetResult.err PErr.poolClosed, [])) := by
  refine ⟨?_, ?_, ?_, fun _ _ _ => rfl⟩
  · cases hc : s.chanCloseClosed <;> simp [Close, hc]
  · intro h
    simp [Close, h]
  · intro h
    simp [Close, h]

/-- Witness for C3: closing a fresh one-idle-item pool disposes that item
with `ErrPoolClosed` and runs `creator.Close()` once; closing again is a
no-op. -/
theorem close_idempotent_witness :
    Close (Close { chanCloseClosed := false, chansClosed := false,
                   idle := [newInfoItem 3], disposals := [],
                   creatorCloseCount := 0 })
      = Close { chanCloseClosed := false, chansClosed := false,
                idle := [newInfoItem 3], disposals := [],
                creatorCloseCount := 0 } ∧
    Close { chanCloseClosed := true, chansClosed := true, idle := [],
            disposals := [(newInfoItem 3, PErr.poolClosed)],
            creatorCloseCount := 1 }
      = { chanCloseClosed := true, chansClosed := true, idle := [],
          disposals := [(newInfoItem 3, PErr.poolClosed)],
          creatorCloseCount := 1 } ∧
    (Close { chanCloseClosed := false, chansClosed := false,
             idle := [newInfoItem 3], disposals := [],
             creatorCloseCount := 0 }).creatorCloseCount = 0 + 1 :=
  ⟨(close_idempotent _).1,
   (close_idempotent _).2.1 rfl,
   ((close_idempotent _).2.2.1 rfl).2.2.2.2⟩

/-- C4: at the blocking pull, when the trace event is the `getTimeout`
timer firing (possible only with `getTimeout > 0`), `Get` returns
`(nil, ErrGetTimeout)`; with `getTimeout ≤ 0` no timer exists in a valid
trace and `Get` never returns `ErrGetTimeout` (the pull blocks
indefinitely); and finding `chanIdle` closed at any pull point returns
`(nil, ErrPoolClosed)`. -/
theorem get_timeout_races (ii : ItemInfo → Nat → Option Nat) (it gt : Int) :
    (∀ rest, Get ii it (PullOutcome.timerFired :: rest)
        = (GetResult.err PErr.getTimeout, [])) ∧
    (∀ (t : List PullOutcome), gt ≤ 0 → timerAllowed gt t →
      (Get ii it t).1 ≠ GetResult.err PErr.getTimeout) ∧
    (∀ rest, Get ii it (PullOutcome.chanClosed :: rest)
        = (GetResult.err PErr.poolClosed, [])) := by
  refine ⟨fun _ => rfl, ?_, fun _ => rfl⟩
  intro t hgt hta
  exact get_no_timer_no_getTimeout ii it t (hta hgt)

/-- Witness for C4: a timer-expiry event yields `ErrGetTimeout`, with
`getTimeout = 0` an (empty) timer-free trace cannot yield
`ErrGetTimeout`, and a closed registry yields `ErrPoolClosed`. -/
theorem get_timeout_races_witness :
    Get (fun _ _ => none) 0 [PullOutcome.timerFired]
      = (GetResult.err PErr.getTimeout, []) ∧
    (Get (fun _ _ => none) 0 ([] : List PullOutcome)).1
      ≠ GetResult.err PErr.getTimeout ∧
    Get (fun _ _ => none) 0 [PullOutcome.chanClosed]
      = (GetResult.err PErr.poolClosed, []) :=
  ⟨(get_timeout_races (fun _ _ => none) 0 0).1 [],
   (get_timeout_races (fun _ _ => none) 0 0).2.1 []
     (by decide) (fun _ => List.not_mem_nil _),
   (get_timeout_races (fun _ _ => none) 0 0).2.2 []⟩

/-- C5: a non-nil `InitItem` error is never the result of `Get`; when
`InitItem` fails on a pulled item, `Get` disposes the item via
`closeItem` (recording the `InitItem` error on it) and retries the
acquisition loop on the remaining trace. -/
theorem get_initItem_error_retries (ii : ItemInfo → Nat → Option Nat)
    (it now : Int) (r : ItemInfo) (code : Nat) (rest : List PullOutcome) :
    (∀ (t : List PullOutcome) (c : Nat),
      (Get ii it t).1 ≠ GetResult.err (PErr.creatorErr c)) ∧
    (r.closed = false → checkIdleTimeout it now (acquireMark r) = false →
      ii (acquireMark r) (acquireMark r).useCount = some code →
      Get ii it (PullOutcome.got r now :: rest)
        = ((Get ii it rest).1,
           (acquireMark r, PErr.creatorErr code) :: (Get ii it rest).2)) := by
  constructor
  · intro t c h
    rcases get_err_cases ii it t _ h with h1 | h1 <;> simp at h1
  · intro hcl hk hii
    rw [Get_got, hcl]
    simp [hk, hii]

/-- Witness for C5: a creator whose `InitItem` always fails with code 7
makes `Get` dispose the pulled record with that error and keep looping
(the trace ends, so the call is still pending, not an error). -/
theorem get_initItem_error_retries_witness :
    Get (fun _ _ => some 7) 0 [PullOutcome.got (newInfoItem 5) 9]
      = ((Get (fun _ _ => some 7) 0 []).1,
         (acquireMark (newInfoItem 5), PErr.creatorErr 7)
           :: (Get (fun _ _ => some 7) 0 []).2) :=
  (get_initItem_error_retries (fun _ _ => some 7) 0 9 (newInfoItem 5) 7 []).2
    rfl (by decide) rfl

/-- C6: `doGiveBack` on a resolvable, not-yet-disposed record marks it
inactive, stamps `idleTime` with the current time, and races the push
into the Idle Registry against the 10-second grace timer
(`giveBackGraceSeconds = 10`): a completed push re-enters the registry,
a timed-out push disposes the record with `ErrIdleFull`; an already
disposed record (or an unresolvable handle) is a no-op. -/
theorem giveBack_spec (item : ItemInfo) (now : Int) (race : PushRace)
    (s : GBState) :
    giveBackGraceSeconds = 10 ∧
    doGiveBack none now race s = s ∧
    (item.closed = true → doGiveBack (some item) now race s = s) ∧
    (item.closed = false →
      doGiveBack (some item) now PushRace.pushed s
        = { s with idle :=
            s.idle ++ [{ item with active := false, idleTime := now }] } ∧
      doGiveBack (some item) now PushRace.graceTimedOut s
        = { s with disposals := s.disposals
            ++ [({ item with active := false, idleTime := now },
                 PErr.idleFull)] }) := by
  refine ⟨rfl, rfl, ?_, ?_⟩
  · intro h
    cases race <;> simp [doGiveBack, h]
  · intro h
    constructor <;> simp [doGiveBack, h]

/-- Witness for C6: giving back a live record at time 42 pushes it,
inactive and restamped, into the Idle Registry; a record already marked
`closed` is left alone. -/
theorem giveBack_spec_witness :
    doGiveBack (some { active := true, useCount := 1, idleTime := 3,
                       closed := false, err := none }) 42 PushRace.pushed
        { idle := [], disposals := [] }
      = { idle := [{ active := false, useCount := 1, idleTime := 42,
                     closed := false, err := none }], disposals := [] } ∧
    doGiveBack (some { active := true, useCount := 1, idleTime := 3,
                       closed := true, err := none }) 42 PushRace.pushed
        { idle := [], disposals := [] }
      = { idle := [], disposals := [] } :=
  ⟨((giveBack_spec { active := true, useCount := 1, idleTime := 3,
                     closed := false, err := none } 42 PushRace.pushed
      { idle := [], disposals := [] }).2.2.2 rfl).1,
   (giveBack_spec { active := true, useCount := 1, idleTime := 3,
                    closed := true, err := none } 42 PushRace.pushed
      { idle := [], disposals := [] }).2.2.1 rfl⟩

/-- C7: disposal is idempotent — `doClearItem` run twice equals
`doClearItem` run once (the first run sets `closed` and severs the
container back-reference, so the second resolves nothing to do); a
record whose `closed` flag is already set is a no-op; the `chanTotal`
token is released at most once per record and the teardown body runs at
most once per call. -/
theorem clearItem_idempotent (s : ClearState) :
    doClearItem (doClearItem s) = doClearItem s ∧
    (s.itemClosed = true → doClearItem s = s) ∧
    (s.hasContainer = false → doClearItem s = s) ∧
    (doClearItem s).teardownCount ≤ s.teardownCount + 1 ∧
    s.tokens - 1 ≤ (doClearItem s).tokens ∧
    (doClearItem (doClearItem s)).tokens = (doClearItem s).tokens := by
  by_cases h1 : s.hasContainer = false
  · refine ⟨?_, ?_, fun _ => ?_, ?_, ?_, ?_⟩ <;> simp [doClearItem, h1]
  · by_cases h2 : s.itemClosed = true
    · refine ⟨?_, fun _ => ?_, ?_, ?_, ?_, ?_⟩ <;> simp [doClearItem, h1, h2]
    · refine ⟨?_, fun hc => absurd hc h2, fun hc => absurd hc h1, ?_, ?_, ?_⟩
        <;> simp [doClearItem, h1, h2]

/-- Witness for C7: clearing a live record twice equals clearing it
once, and clearing an already-`closed` record is a no-op. -/
theorem clearItem_idempotent_witness :
    doClearItem (doClearItem { hasContainer := true, itemClosed := false,
                               itemErr := some (PErr.creatorErr 3), tokens := 2,
                               toNewSignal := false, teardownCount := 0 })
      = doClearItem { hasContainer := true, itemClosed := false,
                      itemErr := some (PErr.creatorErr 3), tokens := 2,
                      toNewSignal := false, teardownCount := 0 } ∧
    doClearItem { hasContainer := true, itemClosed := true, itemErr := none,
                  tokens := 2, toNewSignal := false, teardownCount := 1 }
      = { hasContainer := true, itemClosed := true, itemErr := none,
          tokens := 2, toNewSignal := false, teardownCount := 1 } :=
  ⟨(clearItem_idempotent _).1, (clearItem_idempotent _).2.1 rfl⟩

/-- C8: `useCount` starts at 0 on a fresh record, is incremented exactly
once per acquisition (`acquireMark`), every returned resource passed the
`InitItem` hook invoked with its current (incremented) `useCount`, and
that argument equals 1 exactly when the record had never been handed out
(`useCount` was 0). -/
theorem get_useCount_discipline (ii : ItemInfo → Nat → Option Nat)
    (it now : Int) (r : ItemInfo) (rest : List PullOutcome) :
    (newInfoItem now).useCount = 0 ∧
    (acquireMark r).useCount = r.useCount + 1 ∧
    ((acquireMark r).useCount = 1 ↔ r.useCount = 0) ∧
    (∀ (t : List PullOutcome) (rp : ItemInfo),
      (Get ii it t).1 = GetResult.item rp → ii rp rp.useCount = none) ∧
    (r.closed = false → checkIdleTimeout it now (acquireMark r) = false →
      ii (acquireMark r) (acquireMark r).useCount = none →
      Get ii it (PullOutcome.got r now :: rest)
        = (GetResult.item (acquireMark r), [])) := by
  refine ⟨rfl, rfl, by simp [acquireMark], ?_, ?_⟩
  · intro t rp h
    obtain ⟨r2, n2, -, -, -, h4⟩ := get_item_origin ii it t rp h
    exact h4
  · intro hcl hk hii
    rw [Get_got, hcl]
    simp [hk, hii]

/-- Witness for C8: a fresh record pulled once is returned with
`useCount = 1`, the value its `InitItem` call received. -/
theorem get_useCount_discipline_witness :
    Get (fun _ _ => none) 0 [PullOutcome.got (newInfoItem 5) 9]
      = (GetResult.item (acquireMark (newInfoItem 5)), []) ∧
    (acquireMark (newInfoItem 5)).useCount = 1 :=
  ⟨(get_useCount_discipline (fun _ _ => none) 0 9 (newInfoItem 5) []).2.2.2.2
     rfl (by decide) rfl,
   ((get_useCount_discipline (fun _ _ => none) 0 9 (newInfoItem 5) []).2.2.1).2 rfl⟩

/-- C10: `Get` either returns a record with nil error or a nil record
with an error, and that error is always exactly `ErrPoolClosed` or
`ErrGetTimeout`; no creator (`NewItem`/`InitItem`) error and no other
value is ever returned, and an internal panic is converted by the
deferred `recover` into `(nil, ErrPoolClosed)`. -/
theorem get_result_classification (ii : ItemInfo → Nat → Option Nat) (it : Int) :
    (∀ t : List PullOutcome,
      (Get ii it t).1 = GetResult.pending ∨
      (∃ r, (Get ii it t).1 = GetResult.item r) ∨
      (Get ii it t).1 = GetResult.err PErr.poolClosed ∨
      (Get ii it t).1 = GetResult.err PErr.getTimeout) ∧
    (∀ rest, Get ii it (PullOutcome.panicked :: rest)
        = (GetResult.err PErr.poolClosed, [])) := by
  constructor
  · intro t
    cases hres : (Get ii it t).1 with
    | pending => exact Or.inl rfl
    | item r => exact Or.inr (Or.inl ⟨r, rfl⟩)
    | err e =>
      rcases get_err_cases ii it t e hres with h | h
      · rw [h]
        exact Or.inr (Or.inr (Or.inl rfl))
      · rw [h]
        exact Or.inr (Or.inr (Or.inr rfl))
  · intro rest
    rfl

end Connpool
